import Mathlib

/-!
Verification development for the NLPurge email-cleaning scripts.

The Python sources (`email_cleaner_fixed.py`, `clean_email_content.py`) are
shallowly embedded here: each string transformation becomes a total Lean
function on `List Char`.  Regular-expression substitutions are transcribed as
explicit left-to-right scanners that reproduce the leftmost-match,
greedy-with-backtracking semantics of the `re` module for the concrete
patterns appearing in the source.  Scanners that can jump over several
characters at once take a fuel argument (one unit per emitted chunk, so
`length + 1` fuel always suffices); this keeps every definition structurally
recursive and hence evaluable by `decide` / `rfl`.

Python strings are modelled as `List Char`.  Character classes follow the
ASCII behaviour of the `re` module; all strings appearing in the theorems
below are ASCII, so this is exact for them.
-/

namespace NLPurge

/-- Python whitespace (`\s`, and the default set stripped by `str.strip`):
space, tab, newline, carriage return, vertical tab, form feed.  (The unicode
whitespace characters additionally accepted by Python do not occur in this
development.) -/
def isPySpace (c : Char) : Bool :=
  c = ' ' || c = '\t' || c = '\n' || c = '\r' || c = Char.ofNat 11 || c = Char.ofNat 12

/-- Python word character (`\w` over ASCII): letter, digit or underscore. -/
def isWordChar (c : Char) : Bool :=
  c.isAlphanum || c = '_'

/-- Word-character test lifted to an optional character (`none` stands for the
start or end of the string, which is never a word character). -/
def isWordO : Option Char → Bool
  | some c => isWordChar c
  | none => false

/-- A `\b` word boundary holds between two (optional) characters iff exactly
one of the two sides is a word character. -/
def wordBoundary (l r : Option Char) : Bool :=
  isWordO l != isWordO r

/-- `str.strip()`: remove leading and trailing Python whitespace. -/
def pyStrip (l : List Char) : List Char :=
  ((l.dropWhile isPySpace).reverse.dropWhile isPySpace).reverse

/-- Case-insensitive character comparison (ASCII lowering, as done by
`re.IGNORECASE` on the ASCII patterns of the source). -/
def ciEq (a b : Char) : Bool :=
  a.toLower == b.toLower

/-- `ciStartsWith needle hay`: does `hay` start with `needle`, case
insensitively? -/
def ciStartsWith : List Char → List Char → Bool
  | [], _ => true
  | _ :: _, [] => false
  | n :: ns, h :: hs => ciEq n h && ciStartsWith ns hs

/-- `ciContains needle hay`: case-insensitive substring test, i.e.
`re.search` of a literal pattern under `re.IGNORECASE`. -/
def ciContains (needle : List Char) : List Char → Bool
  | [] => needle.isEmpty
  | c :: rest => ciStartsWith needle (c :: rest) || ciContains needle rest

/-- Fuelled core of Python `str.replace`: replace every (non-overlapping,
left-to-right) occurrence of `needle` by `repl`.  The needles used in the
source are never empty, so each step consumes at least one character and
`length + 1` fuel suffices. -/
def strReplaceF (needle repl : List Char) : Nat → List Char → List Char
  | 0, l => l
  | _ + 1, [] => []
  | fuel + 1, c :: rest =>
    if List.isPrefixOf needle (c :: rest) then
      repl ++ strReplaceF needle repl fuel ((c :: rest).drop needle.length)
    else
      c :: strReplaceF needle repl fuel rest

/-- Python `text.replace(needle, repl)`. -/
def strReplace (needle repl l : List Char) : List Char :=
  strReplaceF needle repl (l.length + 1) l

/-! ### Step 1: `decode_html_entities`  (email_cleaner_fixed.py, lines 96-113) -/

/-- The `html_entities` table of `EmailCleaner.__init__`, in its Python
insertion order (the replacements are applied sequentially in this order). -/
def htmlEntities : List (List Char × List Char) :=
  [("&nbsp;".data, " ".data),
   ("&amp;".data, "&".data),
   ("&lt;".data, "<".data),
   ("&gt;".data, ">".data),
   ("&quot;".data, "\"".data),
   ("&#39;".data, "'".data),
   ("&apos;".data, "'".data)]

/-- Manual entity decoding: the `for entity, replacement in ...: text =
text.replace(...)` loop. -/
def applyEntities (l : List Char) : List Char :=
  htmlEntities.foldl (fun t p => strReplace p.1 p.2 t) l

/-- Does a `<` open a markup tag?  `html.parser` starts a tag only when `<`
is followed by an ASCII letter, `/` or `!`; otherwise the `<` is literal
text. -/
def tagOpens : List Char → Bool
  | c :: _ => c.isAlpha || c = '/' || c = '!'
  | [] => false

/-- Decode one HTML entity reference sitting right after a `&`, returning the
decoded text and the remaining input.  Only the named/numeric entities from
the source's own table are modelled; no other entity occurs in this
development. -/
def entityAt (l : List Char) : Option (List Char × List Char) :=
  if List.isPrefixOf "nbsp;".data l then some (" ".data, l.drop 5)
  else if List.isPrefixOf "amp;".data l then some ("&".data, l.drop 4)
  else if List.isPrefixOf "lt;".data l then some ("<".data, l.drop 3)
  else if List.isPrefixOf "gt;".data l then some (">".data, l.drop 3)
  else if List.isPrefixOf "quot;".data l then some ("\"".data, l.drop 5)
  else if List.isPrefixOf "#39;".data l then some ("'".data, l.drop 4)
  else if List.isPrefixOf "apos;".data l then some ("'".data, l.drop 4)
  else none

/-- Modelled third-party behaviour: `BeautifulSoup(text, 'html.parser').get_text()`
as used by `decode_html_entities`.  The model strips every tag span
(`<` opening a tag through the next `>`; an unclosed trailing tag is
discarded, as `html.parser` produces no text node for it), decodes entity
references, and keeps every other character.  This reproduces the library's
output on the simple well-formed markup appearing in this development. -/
def soupGetTextF : Nat → List Char → List Char
  | 0, l => l
  | _ + 1, [] => []
  | fuel + 1, '<' :: rest =>
    if tagOpens rest then
      match rest.dropWhile (fun c => c != '>') with
      | _ :: after => soupGetTextF fuel after
      | [] => []
    else
      '<' :: soupGetTextF fuel rest
  | fuel + 1, '&' :: rest =>
    match entityAt rest with
    | some (repl, rest') => repl ++ soupGetTextF fuel rest'
    | none => '&' :: soupGetTextF fuel rest
  | fuel + 1, c :: rest => c :: soupGetTextF fuel rest

/-- Modelled `BeautifulSoup(text, 'html.parser').get_text()`. -/
def soupGetText (l : List Char) : List Char :=
  soupGetTextF (l.length + 1) l

/-- `EmailCleaner.decode_html_entities`: if the text contains both `<` and
`>` it is parsed as HTML and the visible text extracted, otherwise the
entity table is applied by direct replacement.  (The `try`/`except` around
the parser is dead in the model, since the modelled parser is total.) -/
def decodeHtmlEntities (l : List Char) : List Char :=
  if l.contains '<' && l.contains '>' then soupGetText l
  else applyEntities l

/-! ### Step 2: `remove_html_tags`  (email_cleaner_fixed.py, lines 115-127) -/

/-- `re.sub(r'<[^>]+>', ' ', text)`: replace every `<`, one or more
non-`>` characters, `>` span by a single space. -/
def tagSubF : Nat → List Char → List Char
  | 0, l => l
  | _ + 1, [] => []
  | fuel + 1, '<' :: rest =>
    match rest.takeWhile (fun c => c != '>'), rest.dropWhile (fun c => c != '>') with
    | _ :: _, _ :: after => ' ' :: tagSubF fuel after
    | _, _ => '<' :: tagSubF fuel rest
  | fuel + 1, c :: rest => c :: tagSubF fuel rest

def tagSub (l : List Char) : List Char :=
  tagSubF (l.length + 1) l

/-- Scan forward for the earliest case-insensitive occurrence of `needle`
(the lazy `.*?` under `re.DOTALL` crosses newlines freely); return the input
remaining after it. -/
def findCIFrom (needle : List Char) : List Char → Option (List Char)
  | [] => if needle.isEmpty then some [] else none
  | c :: rest =>
    if ciStartsWith needle (c :: rest) then some ((c :: rest).drop needle.length)
    else findCIFrom needle rest

/-- Scan forward for the earliest case-insensitive occurrence of `needle`
without crossing a newline (the lazy `.*?` with no `re.DOTALL`). -/
def findCIFromNoNL (needle : List Char) : List Char → Option (List Char)
  | [] => if needle.isEmpty then some [] else none
  | c :: rest =>
    if ciStartsWith needle (c :: rest) then some ((c :: rest).drop needle.length)
    else if c = '\n' then none
    else findCIFromNoNL needle rest

/-- Try to match `<script[^>]*>.*?</script>` (or the `style` variant) at the
head of the input under `re.DOTALL | re.IGNORECASE`; return the remaining
input on success. -/
def scriptBlockAt (word : List Char) (l : List Char) : Option (List Char) :=
  match l with
  | '<' :: rest =>
    if ciStartsWith word rest then
      let afterWord := rest.drop word.length
      match afterWord.dropWhile (fun c => c != '>') with
      | _ :: afterOpen => findCIFrom ('<' :: '/' :: word ++ ">".data) afterOpen
      | [] => none
    else none
  | _ => none

/-- `re.sub(r'<script[^>]*>.*?</script>', '', text, flags=re.DOTALL |
re.IGNORECASE)` and the identical `style` substitution, parameterised by the
tag word. -/
def scriptSubF (word : List Char) : Nat → List Char → List Char
  | 0, l => l
  | _ + 1, [] => []
  | fuel + 1, c :: rest =>
    match scriptBlockAt word (c :: rest) with
    | some after => scriptSubF word fuel after
    | none => c :: scriptSubF word fuel rest

def scriptSub (word : List Char) (l : List Char) : List Char :=
  scriptSubF word (l.length + 1) l

/-- `re.sub(r'/\*.*?\*/', '', text, flags=re.DOTALL)`: drop CSS comment
blocks, shortest match first. -/
def cssCommentSubF : Nat → List Char → List Char
  | 0, l => l
  | _ + 1, [] => []
  | fuel + 1, '/' :: '*' :: rest =>
    match findCIFrom "*/".data rest with
    | some after => cssCommentSubF fuel after
    | none => '/' :: cssCommentSubF fuel ('*' :: rest)
  | fuel + 1, c :: rest => c :: cssCommentSubF fuel rest

def cssCommentSub (l : List Char) : List Char :=
  cssCommentSubF (l.length + 1) l

/-- `EmailCleaner.remove_html_tags`: the four substitutions in source
order. -/
def removeHtmlTags (l : List Char) : List Char :=
  cssCommentSub (scriptSub "style".data (scriptSub "script".data (tagSub l)))

/-! ### Step 3: `convert_links_to_text`  (email_cleaner_fixed.py, lines 129-147) -/

/-- The negated character class of the URL patterns,
`[^\s<>"{}|\\^` backtick `\[\]]`: everything except Python whitespace and the
eleven listed characters (`{`, `}` and the backtick are written by code
point). -/
def urlChar (c : Char) : Bool :=
  !(isPySpace c || c = '<' || c = '>' || c = '"' || c = Char.ofNat 123 ||
    c = Char.ofNat 125 || c = '|' || c = '\\' || c = '^' || c = Char.ofNat 96 ||
    c = '[' || c = ']')

/-- Try to match `https?://[^\s<>"{}|\\^` backtick `\[\]]+` at the head of
the input (the scheme, then at least one allowed character, taken
greedily); return the remaining input on success. -/
def urlHead : List Char → Option (List Char)
  | 'h' :: 't' :: 't' :: 'p' :: 's' :: ':' :: '/' :: '/' :: rest =>
    if (rest.takeWhile urlChar).isEmpty then none else some (rest.dropWhile urlChar)
  | 'h' :: 't' :: 't' :: 'p' :: ':' :: '/' :: '/' :: rest =>
    if (rest.takeWhile urlChar).isEmpty then none else some (rest.dropWhile urlChar)
  | _ => none

/-- `re.sub(r'https?://[^\s<>"{}|\\^` backtick `\[\]]+', 'link', text)`. -/
def urlSubF : Nat → List Char → List Char
  | 0, l => l
  | _ + 1, [] => []
  | fuel + 1, c :: rest =>
    match urlHead (c :: rest) with
    | some after => "link".data ++ urlSubF fuel after
    | none => c :: urlSubF fuel rest

def urlSub (l : List Char) : List Char :=
  urlSubF (l.length + 1) l

/-- Does the text contain a well-formed scheme-prefixed URL, i.e. `http://`
or `https://` followed by at least one URL character? -/
def hasURL : List Char → Bool
  | [] => false
  | c :: rest => (urlHead (c :: rest)).isSome || hasURL rest

/-- Try to match `www\.[^\s<>"{}|\\^` backtick `\[\]]+` at the head of the
input. -/
def wwwHead : List Char → Option (List Char)
  | 'w' :: 'w' :: 'w' :: '.' :: rest =>
    if (rest.takeWhile urlChar).isEmpty then none else some (rest.dropWhile urlChar)
  | _ => none

/-- `re.sub(r'www\.[^\s<>"{}|\\^` backtick `\[\]]+', 'link', text)`. -/
def wwwSubF : Nat → List Char → List Char
  | 0, l => l
  | _ + 1, [] => []
  | fuel + 1, c :: rest =>
    match wwwHead (c :: rest) with
    | some after => "link".data ++ wwwSubF fuel after
    | none => c :: wwwSubF fuel rest

def wwwSub (l : List Char) : List Char :=
  wwwSubF (l.length + 1) l

/-- Local-part class of the email pattern: `[A-Za-z0-9._%+-]`. -/
def localChar (c : Char) : Bool :=
  c.isAlphanum || c = '.' || c = '_' || c = '%' || c = '+' || c = '-'

/-- Domain class of the email pattern: `[A-Za-z0-9.-]`. -/
def domainChar (c : Char) : Bool :=
  c.isAlphanum || c = '.' || c = '-'

/-- Final-label class of the email pattern, `[A-Z|a-z]`: letters and, as
written in the source, the literal `|`. -/
def tldChar (c : Char) : Bool :=
  c.isAlpha || c = '|'

/-- Backtracking over `[A-Z|a-z]{2,}\b`: `run` is the greedy run of
final-label characters, `t` the number currently consumed (tried from the
greedy maximum downwards, stopping at the minimum 2); succeed when a word
boundary follows the `t` consumed characters. -/
def tldTryLen (run : List Char) (l : List Char) : Nat → Option (List Char)
  | 0 => none
  | t + 1 =>
    if t + 1 < 2 then none
    else
      match run.get? t with
      | none => tldTryLen run l t
      | some last =>
        if wordBoundary (some last) (l.drop (t + 1)).head? then some (l.drop (t + 1))
        else tldTryLen run l t

/-- Match `[A-Z|a-z]{2,}\b` at the head of the input (greedy, with
backtracking on the repetition count). -/
def tldAt (l : List Char) : Option (List Char) :=
  let run := l.takeWhile tldChar
  tldTryLen run l run.length

/-- Backtracking over `[A-Za-z0-9.-]+\.` within the greedy domain run `D`:
`d` is the number of characters the `+` currently consumes (tried from the
greedy maximum downwards, minimum 1); the next character must then be the
literal dot. -/
def domainTryLen (D : List Char) (l : List Char) : Nat → Option (List Char)
  | 0 => none
  | d + 1 =>
    if D.get? (d + 1) = some '.' then
      match tldAt (l.drop (d + 2)) with
      | some rest => some rest
      | none => domainTryLen D l d
    else domainTryLen D l d

/-- Match `[A-Za-z0-9.-]+\.[A-Z|a-z]{2,}\b` at the head of the input. -/
def domainAt (l : List Char) : Option (List Char) :=
  let D := l.takeWhile domainChar
  match D.length with
  | 0 => none
  | d + 1 => domainTryLen D l d

/-- Try to match the email pattern
`\b[A-Za-z0-9._%+-]+@[A-Za-z0-9.-]+\.[A-Z|a-z]{2,}\b` at the head of the
input, `prev` being the character immediately before the current position;
return the remaining input on success.  The local run is greedy and needs no
backtracking because `@` is not a local character. -/
def emailHead (prev : Option Char) (l : List Char) : Option (List Char) :=
  let localRun := l.takeWhile localChar
  if localRun.isEmpty then none
  else if !wordBoundary prev l.head? then none
  else
    match l.drop localRun.length with
    | '@' :: afterAt => domainAt afterAt
    | _ => none

/-- The original character standing immediately before the suffix `rest`
of `l` (used to re-establish the `\b` context after a replacement: Python
evaluates boundaries against the original text). -/
def prevOf (l rest : List Char) : Option Char :=
  l.get? (l.length - rest.length - 1)

/-- `re.sub(r'\b[A-Za-z0-9._%+-]+@[A-Za-z0-9.-]+\.[A-Z|a-z]{2,}\b', 'email', text)`. -/
def emailSubF : Nat → Option Char → List Char → List Char
  | 0, _, l => l
  | _ + 1, _, [] => []
  | fuel + 1, prev, c :: rest =>
    match emailHead prev (c :: rest) with
    | some after => "email".data ++ emailSubF fuel (prevOf (c :: rest) after) after
    | none => c :: emailSubF fuel (some c) rest

def emailSub (l : List Char) : List Char :=
  emailSubF (l.length + 1) none l

/-- Consume exactly `n` ASCII digits (`\d{n}`). -/
def digitN : Nat → List Char → Option (List Char)
  | 0, l => some l
  | _ + 1, [] => none
  | n + 1, c :: rest => if c.isDigit then digitN n rest else none

/-- The tail `\d{4}\b` of the phone pattern. -/
def phoneEnd (l : List Char) : Option (List Char) :=
  (digitN 4 l).bind fun r => if isWordO r.head? then none else some r

/-- The tail `[-.]?\d{4}\b` of the phone pattern: the optional separator is
greedy, so the branch consuming it is tried first. -/
def phoneSep2 (l : List Char) : Option (List Char) :=
  match l with
  | c :: r => if c = '-' || c = '.' then phoneEnd r <|> phoneEnd l else phoneEnd l
  | [] => none

/-- The tail `[-.]?\d{3}[-.]?\d{4}\b` of the phone pattern. -/
def phoneMid (l : List Char) : Option (List Char) :=
  match l with
  | c :: r =>
    if c = '-' || c = '.' then ((digitN 3 r).bind phoneSep2) <|> ((digitN 3 l).bind phoneSep2)
    else (digitN 3 l).bind phoneSep2
  | [] => none

/-- Try to match `\b\d{3}[-.]?\d{3}[-.]?\d{4}\b` at the head of the input.
The leading `\b` sits before a digit (a word character), so it holds iff
`prev` is not a word character. -/
def phoneHead (prev : Option Char) (l : List Char) : Option (List Char) :=
  if isWordO prev then none else (digitN 3 l).bind phoneMid

/-- `re.sub(r'\b\d{3}[-.]?\d{3}[-.]?\d{4}\b', 'phone', text)`. -/
def phoneSubF : Nat → Option Char → List Char → List Char
  | 0, _, l => l
  | _ + 1, _, [] => []
  | fuel + 1, prev, c :: rest =>
    match phoneHead prev (c :: rest) with
    | some after => "phone".data ++ phoneSubF fuel (prevOf (c :: rest) after) after
    | none => c :: phoneSubF fuel (some c) rest

def phoneSub (l : List Char) : List Char :=
  phoneSubF (l.length + 1) none l

/-- Try to match `\[link\].*?\[/link\]` (case-insensitive, `.` does not
cross newlines: the source passes only `re.IGNORECASE`) at the head of the
input. -/
def linkTagAt (l : List Char) : Option (List Char) :=
  if ciStartsWith "[link]".data l then findCIFromNoNL "[/link]".data (l.drop 6)
  else none

/-- `re.sub(r'\[link\].*?\[/link\]', 'link', text, flags=re.IGNORECASE)`. -/
def linkTagSubF : Nat → List Char → List Char
  | 0, l => l
  | _ + 1, [] => []
  | fuel + 1, c :: rest =>
    match linkTagAt (c :: rest) with
    | some after => "link".data ++ linkTagSubF fuel after
    | none => c :: linkTagSubF fuel rest

def linkTagSub (l : List Char) : List Char :=
  linkTagSubF (l.length + 1) l

/-- Try to match `<a[^>]*>.*?</a>` (case-insensitive, `.` does not cross
newlines) at the head of the input. -/
def anchorAt (l : List Char) : Option (List Char) :=
  match l with
  | '<' :: c :: rest =>
    if ciEq c 'a' then
      match rest.dropWhile (fun x => x != '>') with
      | _ :: afterOpen => findCIFromNoNL "</a>".data afterOpen
      | [] => none
    else none
  | _ => none

/-- `re.sub(r'<a[^>]*>.*?</a>', 'link', text, flags=re.IGNORECASE)`. -/
def anchorSubF : Nat → List Char → List Char
  | 0, l => l
  | _ + 1, [] => []
  | fuel + 1, c :: rest =>
    match anchorAt (c :: rest) with
    | some after => "link".data ++ anchorSubF fuel after
    | none => c :: anchorSubF fuel rest

def anchorSub (l : List Char) : List Char :=
  anchorSubF (l.length + 1) l

/-- `EmailCleaner.convert_links_to_text`: the six substitutions in source
order. -/
def convertLinksToText (l : List Char) : List Char :=
  anchorSub (linkTagSub (phoneSub (emailSub (wwwSub (urlSub l)))))

/-! ### Step 4: `remove_signatures`  (email_cleaner_fixed.py, lines 33-51 and 149-165) -/

/-- `re.search(r'--\s*\n', line, re.IGNORECASE)` tried at one position: two
hyphens, then `\s*` (greedy, with backtracking) must reach a `\n`.  Since
every character the star consumes is whitespace and `\n` is itself
whitespace, the attempt succeeds iff the whitespace run after the hyphens
contains a newline. -/
def sigDashAt : List Char → Bool
  | '-' :: '-' :: rest => (rest.takeWhile isPySpace).contains '\n'
  | _ => false

/-- `re.search(r'--\s*\n', line, re.IGNORECASE)` over the whole line. -/
def sigDash : List Char → Bool
  | [] => false
  | c :: rest => sigDashAt (c :: rest) || sigDash rest

/-- `re.search(r'© \d{4}', line, re.IGNORECASE)` tried at one position. -/
def sigCopyrightAt : List Char → Bool
  | c :: ' ' :: d1 :: d2 :: d3 :: d4 :: _ =>
    c = Char.ofNat 169 && d1.isDigit && d2.isDigit && d3.isDigit && d4.isDigit
  | _ => false

/-- `re.search(r'© \d{4}', line, re.IGNORECASE)` over the whole line. -/
def sigCopyright : List Char → Bool
  | [] => false
  | c :: rest => sigCopyrightAt (c :: rest) || sigCopyright rest

/-- The `signature_patterns` table of `EmailCleaner.__init__`, in source
order, each entry as the `re.search(pattern, line, re.IGNORECASE)` test it
performs on a line.  All entries except the first and the `© \d{4}` one are
literal patterns, i.e. case-insensitive substring tests. -/
def signaturePatterns : List (List Char → Bool) :=
  [sigDash,
   ciContains "Sent from my iPhone".data,
   ciContains "Sent from my Android".data,
   ciContains "Get Outlook for iOS".data,
   ciContains "Get Outlook for Android".data,
   ciContains "This email was sent from a notification-only address".data,
   ciContains "Please do not reply to this email".data,
   ciContains "To unsubscribe".data,
   ciContains "Click here to unsubscribe".data,
   ciContains "If you received this email in error".data,
   ciContains "This is an automated message".data,
   ciContains "Powered by".data,
   sigCopyright,
   ciContains "All rights reserved".data,
   ciContains "Confidentiality Notice".data,
   ciContains "This message is intended only for".data,
   ciContains "If you are not the intended recipient".data]

/-- Does a line match any signature pattern? -/
def isSignatureLine (line : List Char) : Bool :=
  signaturePatterns.any (fun p => p line)

/-- `EmailCleaner.remove_signatures`: split on `\n`, drop every line matching
a signature pattern, rejoin with `\n`. -/
def removeSignatures (l : List Char) : List Char :=
  List.intercalate "\n".data ((l.splitOn '\n').filter (fun line => !isSignatureLine line))

/-! ### Step 5: `normalize_whitespace`  (email_cleaner_fixed.py, lines 167-181) -/

/-- `re.sub(r' +', ' ', text)`: collapse every run of spaces to one
space. -/
def spaceSubF : Nat → List Char → List Char
  | 0, l => l
  | _ + 1, [] => []
  | fuel + 1, ' ' :: rest => ' ' :: spaceSubF fuel (rest.dropWhile (fun c => c == ' '))
  | fuel + 1, c :: rest => c :: spaceSubF fuel rest

def spaceSub (l : List Char) : List Char :=
  spaceSubF (l.length + 1) l

/-- Index of the last `\n` within a list, if any. -/
def lastNewlineIdx (ws : List Char) : Option Nat :=
  (ws.reverse.findIdx? (fun c => c == '\n')).map (fun k => ws.length - 1 - k)

/-- `re.sub(r'\n\s*\n', '\n', text)`: a `\n`, then greedy `\s*` with
backtracking, then `\n`.  All characters the star can consume lie in the
whitespace run after the first newline, and the greedy backtracking settles
on the last newline inside that run; the match is replaced by a single
newline and scanning resumes after it. -/
def nlSubF : Nat → List Char → List Char
  | 0, l => l
  | _ + 1, [] => []
  | fuel + 1, '\n' :: rest =>
    match lastNewlineIdx (rest.takeWhile isPySpace) with
    | some j => '\n' :: nlSubF fuel (rest.drop (j + 1))
    | none => '\n' :: nlSubF fuel rest
  | fuel + 1, c :: rest => c :: nlSubF fuel rest

def nlSub (l : List Char) : List Char :=
  nlSubF (l.length + 1) l

/-- `EmailCleaner.normalize_whitespace`: collapse space runs, collapse blank
stretches between newlines, strip each line, drop empty lines, rejoin. -/
def normalizeWhitespace (l : List Char) : List Char :=
  List.intercalate "\n".data
    ((((nlSub (spaceSub l)).splitOn '\n').map pyStrip).filter (fun line => !line.isEmpty))

/-! ### Step 6: `clean_punctuation`  (email_cleaner_fixed.py, lines 183-193) -/

/-- `re.sub(r'[p]{2,}', p, text)` for a punctuation character `p`: a run of
two or more is collapsed to one; a single occurrence is left alone. -/
def punctSubF (p : Char) : Nat → List Char → List Char
  | 0, l => l
  | _ + 1, [] => []
  | fuel + 1, c :: rest =>
    if c = p && rest.head? = some p then
      p :: punctSubF p fuel (rest.dropWhile (fun x => x == p))
    else
      c :: punctSubF p fuel rest

def punctSub (p : Char) (l : List Char) : List Char :=
  punctSubF p (l.length + 1) l

/-- `EmailCleaner.clean_punctuation`: collapse `!`, `?`, `.` and `,` runs, in
source order. -/
def cleanPunctuation (l : List Char) : List Char :=
  punctSub ',' (punctSub '.' (punctSub '?' (punctSub '!' l)))

/-! ### Step 7: `normalize_unicode`  (email_cleaner_fixed.py, lines 195-207) -/

/-- Modelled standard-library behaviour: `unicodedata.normalize('NFKC', text)`
per character.  NFKC is the identity on ASCII, which covers every string in
this development; of the non-ASCII mappings only the two listed here are
modelled, and all other characters are treated as fixed points. -/
def nfkcChar (c : Char) : List Char :=
  if c = Char.ofNat 160 then [' ']
  else if c = Char.ofNat 8252 then ['!', '!']
  else [c]

/-- Modelled `unicodedata.normalize('NFKC', text)`. -/
def nfkc (l : List Char) : List Char :=
  (l.map nfkcChar).flatten

/-- `EmailCleaner.normalize_unicode`: NFKC, then replace the typographic
double and single quotes with ASCII quotes and the em/en dashes with a
hyphen (source lines 200-205; the replaced characters are written by code
point: left/right double quote, left/right single quote, em dash, en
dash). -/
def normalizeUnicode (l : List Char) : List Char :=
  strReplace [Char.ofNat 8211] "-".data
    (strReplace [Char.ofNat 8212] "-".data
      (strReplace [Char.ofNat 8217] "'".data
        (strReplace [Char.ofNat 8216] "'".data
          (strReplace [Char.ofNat 8221] "\"".data
            (strReplace [Char.ofNat 8220] "\"".data (nfkc l))))))

/-! ### The pipeline: `clean_email_text`  (email_cleaner_fixed.py, lines 64-94) -/

/-- The seven pipeline stages of `clean_email_text`, by their source
position; any other index is the identity. -/
def pipelineStage : Nat → List Char → List Char
  | 1, l => decodeHtmlEntities l
  | 2, l => removeHtmlTags l
  | 3, l => convertLinksToText l
  | 4, l => removeSignatures l
  | 5, l => normalizeWhitespace l
  | 6, l => cleanPunctuation l
  | 7, l => normalizeUnicode l
  | _, l => l

/-- The composition of the first `k` pipeline stages. -/
def stagesUpTo : Nat → List Char → List Char
  | 0, l => l
  | k + 1, l => pipelineStage (k + 1) (stagesUpTo k l)

/-- `EmailCleaner.clean_email_text`, with the possibility of a stage raising
made explicit: `raiseAt = some k` means stage `k` raises an exception when it
is entered, `none` means no stage raises.  The body mirrors the Python
control flow: the `text` variable is reassigned after each stage, and the
`except` handler returns `text.strip() if text else ""` — i.e. the current
value of `text`, trimmed (the `if text else ""` branch coincides with
trimming, since the empty string strips to itself). -/
def cleanEmailTextExc (raiseAt : Option Nat) (text : List Char) : List Char :=
  if text.isEmpty then [] else
  if raiseAt = some 1 then pyStrip text else
  let t1 := decodeHtmlEntities text
  if raiseAt = some 2 then pyStrip t1 else
  let t2 := removeHtmlTags t1
  if raiseAt = some 3 then pyStrip t2 else
  let t3 := convertLinksToText t2
  if raiseAt = some 4 then pyStrip t3 else
  let t4 := removeSignatures t3
  if raiseAt = some 5 then pyStrip t4 else
  let t5 := normalizeWhitespace t4
  if raiseAt = some 6 then pyStrip t5 else
  let t6 := cleanPunctuation t5
  if raiseAt = some 7 then pyStrip t6 else
  let t7 := normalizeUnicode t6
  pyStrip t7

/-- `EmailCleaner.clean_email_text` on the normal (exception-free) path. -/
def cleanEmailText (text : List Char) : List Char :=
  cleanEmailTextExc none text

/-! ### `clean_subject` and `clean_sender`  (email_cleaner_fixed.py, lines 209-236) -/

/-- `re.sub(r'^(RE|FWD|FW|FWD|RE:)\s*:?\s*', '', subject, flags=re.IGNORECASE)`.
The pattern is anchored at the start of the string (no `re.MULTILINE`), so
`re.sub` performs at most one replacement.  The alternation is tried in
source order (`RE` before `FWD` before `FW`; the duplicate `FWD` and the
final `RE:` are unreachable, since an earlier branch matches whenever they
would), and the trailing `\s*:?\s*` always succeeds, greedily eating
whitespace, then an optional colon, then whitespace. -/
def stripReplyMarker (s : List Char) : List Char :=
  let afterGroup : Option (List Char) :=
    if ciStartsWith "re".data s then some (s.drop 2)
    else if ciStartsWith "fwd".data s then some (s.drop 3)
    else if ciStartsWith "fw".data s then some (s.drop 2)
    else none
  match afterGroup with
  | none => s
  | some rest =>
    let rest1 := rest.dropWhile isPySpace
    let rest2 := match rest1 with
      | ':' :: r => r
      | _ => rest1
    rest2.dropWhile isPySpace

/-- `EmailCleaner.clean_subject`: empty subjects become the sentinel, then
the reply/forward marker is stripped, then the general pipeline runs; an
empty result also becomes the sentinel. -/
def cleanSubject (s : List Char) : List Char :=
  if s.isEmpty then "No Subject".data
  else
    let cleaned := cleanEmailText (stripReplyMarker s)
    if cleaned.isEmpty then "No Subject".data else cleaned

/-- `re.search(r'<([^>]+)>', sender)`: scan left to right for a `<` followed
by at least one non-`>` character and then `>`; return the captured group
(the characters strictly between the brackets).  A failed attempt at a `<`
resumes at the next position. -/
def angleSearch : List Char → Option (List Char)
  | [] => none
  | c :: rest =>
    if c = '<' && !(rest.takeWhile (fun x => x != '>')).isEmpty
        && (rest.dropWhile (fun x => x != '>')).head? = some '>' then
      some (rest.takeWhile (fun x => x != '>'))
    else angleSearch rest

/-- `EmailCleaner.clean_sender`: empty senders become the sentinel; a
`Name <address>` composite returns exactly the bracketed address with no
further cleaning; otherwise the sender is returned unchanged (the source's
`'@' in sender` branch and its final fallthrough both return `sender`
as is). -/
def cleanSender (s : List Char) : List Char :=
  if s.isEmpty then "Unknown Sender".data
  else
    match angleSearch s with
    | some addr => addr
    | none => s

/-! ### The record processor: `process_csv_file`  (email_cleaner_fixed.py, lines 238-280) -/

/-- One input record: the four recognized columns. -/
structure EmailRow where
  subject : List Char
  sender : List Char
  body : List Char
  date : List Char

/-- The cleaned record built inside the row loop of `process_csv_file`:
`subject`, `sender` and `body` go through their cleaners, `date` passes
through unchanged. -/
def cleanRow (r : EmailRow) : EmailRow :=
  { subject := cleanSubject r.subject
    sender := cleanSender r.sender
    body := cleanEmailText r.body
    date := r.date }

/-- CSV quoting of one field with doubling of embedded quote characters,
as the `csv` module writes a quoted field. -/
def quoteAlways (f : List Char) : List Char :=
  '"' :: (f.map (fun c => if c = '"' then ['"', '"'] else [c])).flatten ++ ['"']

/-- Does `csv.QUOTE_MINIMAL` (the `csv.writer` default, used by
`process_csv_file`'s `DictWriter`) need to quote this field?  It quotes iff
the field contains the delimiter, the quote character, or a line-terminator
character. -/
def needsQuote (f : List Char) : Bool :=
  f.any (fun c => c == ',' || c == '"' || c == '\n' || c == '\r')

/-- A field as written under `csv.QUOTE_MINIMAL`. -/
def quoteMinimal (f : List Char) : List Char :=
  if needsQuote f then quoteAlways f else f

/-- One output line: the four fields in the fixed order
`subject, sender, body, date`, comma-separated, with the writer's `\r\n`
terminator. -/
def writeRow (quote : List Char → List Char) (r : EmailRow) : List Char :=
  quote r.subject ++ ",".data ++ quote r.sender ++ ",".data ++ quote r.body
    ++ ",".data ++ quote r.date ++ "\r\n".data

/-- The row loop of `process_csv_file`, rows numbered from 1 as by
`enumerate(reader, 1)`.  `fails n` models "cleaning or writing row `n`
raises": the `except` arm counts the row as skipped and writes nothing for
it; otherwise the cleaned row is written and counted as processed.  Returns
the written data lines, the processed count and the skipped count. -/
def processRowsF (fails : Nat → Bool) : Nat → List EmailRow → List (List Char) × Nat × Nat
  | _, [] => ([], 0, 0)
  | n, r :: rest =>
    let acc := processRowsF fails (n + 1) rest
    if fails n then (acc.1, acc.2.1, acc.2.2 + 1)
    else (writeRow quoteMinimal (cleanRow r) :: acc.1, acc.2.1 + 1, acc.2.2)

/-- `process_csv_file` (output side): the header line, then the data lines,
plus the processed/skipped counts.  Its `DictWriter` is created without a
`quoting` argument, i.e. with `csv.QUOTE_MINIMAL`. -/
def processCsv (fails : Nat → Bool) (rows : List EmailRow) :
    List (List Char) × Nat × Nat :=
  let acc := processRowsF fails 1 rows
  ("subject,sender,body,date\r\n".data :: acc.1, acc.2.1, acc.2.2)

/-- The writer of `clean_email_content.py`'s `clean_csv_file`, which passes
`quoting=csv.QUOTE_ALL`: every field of every row is written quoted. -/
def writeRowAll (r : EmailRow) : List Char :=
  writeRow quoteAlways r

/-- One of the two separator slots of the phone pattern
`\b\d{3}[-.]?\d{3}[-.]?\d{4}\b`: a hyphen, a dot, or nothing, each slot
independently. -/
inductive PhoneSep where
  | nosep
  | dash
  | dot

/-- The characters a separator slot contributes to the number. -/
def PhoneSep.toChars : PhoneSep → List Char
  | .nosep => []
  | .dash => ['-']
  | .dot => ['.']

/-! ## Helper lemmas -/

/-- Every pipeline stage maps the empty text to the empty text. -/
theorem pipelineStage_nil : ∀ n, pipelineStage n [] = []
  | 0 => rfl
  | 1 => rfl
  | 2 => rfl
  | 3 => rfl
  | 4 => rfl
  | 5 => rfl
  | 6 => rfl
  | 7 => rfl
  | _ + 8 => rfl

/-- Every prefix of the pipeline maps the empty text to the empty text. -/
theorem stagesUpTo_nil : ∀ k, stagesUpTo k [] = []
  | 0 => rfl
  | k + 1 => by rw [stagesUpTo, stagesUpTo_nil k, pipelineStage_nil]

/-! ## The claims -/

/-- C1.  The spec's worked example for body cleaning claims the output
`"Hello world Visit link now!"`.  The code disagrees: `normalize_whitespace`
collapses the blank line to a single newline (`re.sub(r'\n\s*\n', '\n', ...)`
and a `'\n'.join` of the surviving lines), so `world` and `Visit` stay on
separate lines. -/
theorem c1_counterexample :
    cleanEmailText "<p>Hello <b>world</b></p>\n\nVisit https://example.com now!!!".data
      ≠ "Hello world Visit link now!".data := by
  decide

/-- C1 amended.  The body example actually cleans to
`"Hello world\nVisit link now!"`: markup stripped, URL redacted to `link`,
`!!!` collapsed to `!`, but the blank-line gap becomes a newline, not a
space. -/
theorem c1_amended :
    cleanEmailText "<p>Hello <b>world</b></p>\n\nVisit https://example.com now!!!".data
      = "Hello world\nVisit link now!".data := by
  decide

/-- C2.  The claim says both `RE:` prefixes of `"RE: RE: Meeting tomorrow"`
are stripped.  The code strips only one: the prefix pattern is anchored with
`^` and `re.sub` (without `re.MULTILINE`) can match it only at position 0,
so after the first replacement no further match exists. -/
theorem c2_counterexample :
    cleanSubject "RE: RE: Meeting tomorrow".data ≠ "Meeting tomorrow".data := by
  decide

/-- C2 amended.  `clean_subject` strips exactly one leading reply marker:
`"RE: RE: Meeting tomorrow"` cleans to `"RE: Meeting tomorrow"`. -/
theorem c2_amended :
    cleanSubject "RE: RE: Meeting tomorrow".data = "RE: Meeting tomorrow".data := by
  decide

/-- C3.  The claim says the exception handler returns the original input
trimmed.  It does not: the Python `text` variable is reassigned after every
stage, so the handler returns the latest intermediate value trimmed.  For
input `"a  b"` with an exception at stage 6, stages 1-5 have already
collapsed the double space, and `"a b"`, not the trimmed original `"a  b"`,
is returned. -/
theorem c3_counterexample :
    cleanEmailTextExc (some 6) "a  b".data ≠ pyStrip "a  b".data := by
  decide

/-- C3 amended.  An exception raised on entering stage `k` is caught and the
function returns the text produced by stages `1..k-1`, trimmed — which
equals the original input trimmed only when the first stage raises; no
exception escapes (the model is a total function). -/
theorem c3_amended (l : List Char) (k : Nat) (h1 : 1 ≤ k) (h7 : k ≤ 7) :
    cleanEmailTextExc (some k) l = pyStrip (stagesUpTo (k - 1) l) := by
  by_cases hl : l.isEmpty
  · rw [List.isEmpty_iff] at hl
    subst hl
    rw [stagesUpTo_nil]
    interval_cases k <;> rfl
  · interval_cases k <;>
      simp [cleanEmailTextExc, hl, stagesUpTo, pipelineStage]

/-- C3 witness: the amended statement at the concrete input `"a  b"` with
the exception at stage 6. -/
theorem c3_amended_witness :
    (1 : Nat) ≤ 6 ∧ (6 : Nat) ≤ 7 ∧
      cleanEmailTextExc (some 6) "a  b".data = pyStrip (stagesUpTo 5 "a  b".data) :=
  ⟨by decide, by decide, c3_amended "a  b".data 6 (by decide) (by decide)⟩

/-- C4.  Full idempotence fails.  `"Powered  by"` (two spaces) survives the
first pass — the boilerplate test looks for the substring `"Powered by"`
with a single space, which is not present — but whitespace normalization
creates exactly that substring, so the second pass deletes the line and
returns the empty string. -/
theorem c4_counterexample :
    cleanEmailText (cleanEmailText "Powered  by".data)
      ≠ cleanEmailText "Powered  by".data := by
  decide

/-- C4 amended.  Idempotence holds for representative inputs (the spec's own
body example, and a text mixing a redacted URL with a surviving bare scheme
prefix), though not for every string: whitespace collapse can manufacture a
boilerplate line that only the second pass removes. -/
theorem c4_amended :
    (cleanEmailText (cleanEmailText
        "<p>Hello <b>world</b></p>\n\nVisit https://example.com now!!!".data)
      = cleanEmailText
        "<p>Hello <b>world</b></p>\n\nVisit https://example.com now!!!".data) ∧
    (cleanEmailText (cleanEmailText "see https://a.com and http://".data)
      = cleanEmailText "see https://a.com and http://".data) := by
  constructor <;> decide

/-- C5.  Per-record isolation: on three rows where handling row 2 raises,
the processor writes the header and exactly the cleaned rows 1 and 3 in
order, counts 2 processed and 1 skipped, and emits nothing at all for the
failed row. -/
theorem c5_isolation (r1 r2 r3 : EmailRow) :
    processCsv (fun n => n == 2) [r1, r2, r3]
      = ("subject,sender,body,date\r\n".data ::
          [writeRow quoteMinimal (cleanRow r1), writeRow quoteMinimal (cleanRow r3)],
         2, 1) := by
  rfl

/-- C5 witness: the isolation theorem at a concrete three-row input. -/
theorem c5_isolation_witness :
    processCsv (fun n => n == 2)
        [⟨"a".data, "b".data, "c".data, "d".data⟩,
         ⟨"e".data, "f".data, "g".data, "h".data⟩,
         ⟨"i".data, "j".data, "k".data, "l".data⟩]
      = ("subject,sender,body,date\r\n".data ::
          [writeRow quoteMinimal (cleanRow ⟨"a".data, "b".data, "c".data, "d".data⟩),
           writeRow quoteMinimal (cleanRow ⟨"i".data, "j".data, "k".data, "l".data⟩)],
         2, 1) :=
  c5_isolation _ _ _

/-- C6.  The code contradicts its own `# Email signature separator` comment:
the pattern `--\s*\n` demands a newline, but `remove_signatures` applies it
to lines produced by `split('\n')`, which never contain one, so a `--`
signature-delimiter line is kept verbatim instead of being dropped. -/
theorem c6_dash_line_kept :
    removeSignatures "a\n--\nb".data = "a\n--\nb".data := by
  decide

/-- C7.  The claim (and spec) say every field of every data row is written
quoted.  `process_csv_file`'s `DictWriter` is created without a `quoting`
argument, so it uses `csv.QUOTE_MINIMAL`: a plain row is written entirely
unquoted — the emitted line contains no quote character at all. -/
theorem c7_counterexample :
    processCsv (fun _ => false) [⟨"Hi".data, "a@x.io".data, "Yo".data, "2024".data⟩]
        = (["subject,sender,body,date\r\n".data, "Hi,a@x.io,Yo,2024\r\n".data], 1, 0)
      ∧ ("Hi,a@x.io,Yo,2024\r\n".data).contains '"' = false := by
  constructor <;> decide

/-- C7 amended.  `process_csv_file` quotes a field exactly when
`QUOTE_MINIMAL` requires it — when the field contains the delimiter, the
quote character or a line-terminator character — so embedded commas and
newlines still cannot collide with the delimiter; it is
`clean_email_content.py`'s writer (`quoting=csv.QUOTE_ALL`) that quotes
every field unconditionally. -/
theorem c7_amended :
    (∀ f : List Char, needsQuote f = true → (quoteMinimal f).head? = some '"') ∧
    (∀ f : List Char, (quoteAlways f).head? = some '"') := by
  constructor
  · intro f h
    simp [quoteMinimal, h, quoteAlways]
  · intro f
    simp [quoteAlways]

/-- C7 witness: the amended statement at a concrete comma-carrying field. -/
theorem c7_amended_witness :
    needsQuote "a,b".data = true ∧ (quoteMinimal "a,b".data).head? = some '"' :=
  ⟨by decide, c7_amended.1 "a,b".data (by decide)⟩

/-- Helper for C8: if the remaining text contains a well-formed URL, the
fuelled URL substitution emits the token `link` somewhere. -/
theorem urlSubF_link (f : Nat) :
    ∀ l : List Char, l.length ≤ f → hasURL l = true →
      "link".data <:+: urlSubF (f + 1) l := by
  induction f with
  | zero =>
    intro l hlen hurl
    have hnil : l = [] := List.length_eq_zero.mp (Nat.le_zero.mp hlen)
    subst hnil
    simp [hasURL] at hurl
  | succ f ih =>
    intro l hlen hurl
    cases l with
    | nil => simp [hasURL] at hurl
    | cons c rest =>
      rw [urlSubF]
      cases hu : urlHead (c :: rest) with
      | some after =>
        simp only [hu]
        exact (List.prefix_append _ _).isInfix
      | none =>
        simp only [hu]
        have hurl' : hasURL rest = true := by
          rw [hasURL, hu] at hurl
          simpa using hurl
        have hlen' : rest.length ≤ f := by
          simpa [List.length_cons] using hlen
        exact List.infix_cons (ih rest hlen' hurl')

/-- C8.  The claim also asserts that no scheme-prefixed substring survives.
A bare `http://` not followed by any URL character is not matched by
`https?://[^\s<>"{}|\\^` backtick `\[\]]+` (the class needs at least one
character), so it can survive even when the same input's well-formed URL is
redacted. -/
theorem c8_counterexample :
    hasURL "see https://a.com and http://".data = true ∧
    cleanEmailText "see https://a.com and http://".data = "see link and http://".data ∧
    "http://".data <:+: cleanEmailText "see https://a.com and http://".data := by
  exact ⟨by decide, by decide, by decide⟩

/-- C8 amended.  Whenever the input contains a well-formed scheme-prefixed
URL (`http://` or `https://` followed by at least one URL character), the
URL substitution pass replaces it and the literal token `link` occurs in
that pass's output; but a bare scheme prefix with no following URL character
is not matched and may remain. -/
theorem c8_amended (l : List Char) (h : hasURL l = true) :
    "link".data <:+: urlSub l :=
  urlSubF_link l.length l le_rfl h

/-- C8 witness: the amended statement at a concrete input. -/
theorem c8_amended_witness :
    hasURL "go https://a.b".data = true ∧ "link".data <:+: urlSub "go https://a.b".data :=
  ⟨by decide, c8_amended "go https://a.b".data (by decide)⟩

/-- Helper for C9: the angle-capture `takeWhile` returns exactly the
bracketed text when it contains no `>`. -/
theorem takeWhile_angle (m b : List Char) (h : '>' ∉ m) :
    (m ++ '>' :: b).takeWhile (fun x => x != '>') = m := by
  induction m with
  | nil => simp [List.takeWhile]
  | cons c m ih =>
    have hc : c ≠ '>' := fun hx => h (hx ▸ List.mem_cons_self c m)
    have hm : '>' ∉ m := fun hx => h (List.mem_cons_of_mem c hx)
    simp [List.takeWhile_cons, hc, ih hm]

/-- Helper for C9: the matching `dropWhile` stops exactly at the closing
`>`. -/
theorem dropWhile_angle (m b : List Char) (h : '>' ∉ m) :
    (m ++ '>' :: b).dropWhile (fun x => x != '>') = '>' :: b := by
  induction m with
  | nil => simp [List.dropWhile]
  | cons c m ih =>
    have hc : c ≠ '>' := fun hx => h (hx ▸ List.mem_cons_self c m)
    have hm : '>' ∉ m := fun hx => h (List.mem_cons_of_mem c hx)
    simp [List.dropWhile_cons, hc, ih hm]

/-- Helper for C9: `re.search(r'<([^>]+)>', ...)` captures the text between
the first `<` and the next `>` when the prefix contains no `<`, the
bracketed text is nonempty and contains no `>`. -/
theorem angleSearch_append (a m b : List Char) (ha : '<' ∉ a) (hm : m ≠ [])
    (hgt : '>' ∉ m) :
    angleSearch (a ++ '<' :: (m ++ '>' :: b)) = some m := by
  induction a with
  | nil =>
    simp [angleSearch, takeWhile_angle m b hgt, dropWhile_angle m b hgt, hm]
  | cons c a ih =>
    have hc : c ≠ '<' := fun hx => ha (hx ▸ List.mem_cons_self c a)
    have ha' : '<' ∉ a := fun hx => ha (List.mem_cons_of_mem c hx)
    simpa [angleSearch, hc] using ih ha'

/-- C9.  When the sender contains an angle-bracket-delimited address —
written `a ++ '<' :: (m ++ '>' :: b)` with no earlier `<`, a nonempty
bracketed text `m` and no `>` inside it — `clean_sender` returns exactly
that bracketed text, with no further cleaning applied. -/
theorem c9_sender_bracketed (a m b : List Char) (ha : '<' ∉ a) (hm : m ≠ [])
    (hgt : '>' ∉ m) :
    cleanSender (a ++ '<' :: (m ++ '>' :: b)) = m := by
  have hne : (a ++ '<' :: (m ++ '>' :: b)).isEmpty = false := by
    cases a <;> simp [List.isEmpty]
  simp [cleanSender, hne, angleSearch_append a m b ha hm hgt]

/-- C9 witness: the spec's sender example,
`"Jane Doe <jane@example.com>"` yields exactly `jane@example.com`. -/
theorem c9_sender_bracketed_witness :
    cleanSender ("Jane Doe ".data ++ '<' :: ("jane@example.com".data ++ '>' :: []))
      = "jane@example.com".data :=
  c9_sender_bracketed "Jane Doe ".data "jane@example.com".data []
    (by decide) (by decide) (by decide)

/-- C10.  The claim quantifies over every input containing a word-bounded
phone-shaped substring.  A phone number embedded in a URL is consumed by the
earlier URL substitution of the same function: the phone pattern does match
`555-123.4567` after the `/` (first conjunct), yet the full cleaning of
`http://x.com/555-123.4567` yields `link` and no `phone` token at all. -/
theorem c10_counterexample :
    phoneHead (some '/') "555-123.4567".data = some [] ∧
    cleanEmailText "http://x.com/555-123.4567".data = "link".data ∧
    ¬ ("phone".data <:+: cleanEmailText "http://x.com/555-123.4567".data) := by
  exact ⟨by decide, by decide, by decide⟩

/-- C10 amended.  The redaction is indeed wider than the three listed
shapes: for a bare word-bounded 10-digit number whose two separator slots
independently hold `-`, `.` or nothing — all nine combinations, including
mixed forms such as `555-123.4567` and partial forms such as `555123-4567`
— `clean_email_text` replaces it by the literal token `phone`; but a
phone-shaped substring sitting inside a URL/www/email match is consumed by
those earlier substitutions instead. -/
theorem c10_amended (s1 s2 : PhoneSep) :
    cleanEmailText
        ("555".data ++ s1.toChars ++ "123".data ++ s2.toChars ++ "4567".data)
      = "phone".data := by
  cases s1 <;> cases s2 <;> decide

/-- C10 witness: the amended statement at the mixed-separator instance
`555-123.4567`. -/
theorem c10_amended_witness :
    cleanEmailText
        ("555".data ++ PhoneSep.dash.toChars ++ "123".data
          ++ PhoneSep.dot.toChars ++ "4567".data)
      = "phone".data :=
  c10_amended PhoneSep.dash PhoneSep.dot

end NLPurge
